import Mathlib

/-!
# OtaConfigLoader (src/ota_config_loader.h)

A shallow embedding of the configuration refresh helper of the bin-tracker
firmware.  The loader object, the NVS namespace "ota-config" it opens and the
SPIFFS file "/config.json" it owns are gathered in one explicit state record;
every member function becomes a function from that state (and the answers of
the outside world during the call) to a result and a new state.

Arduino `String` values are finite character sequences.  Serial logging has no
effect on the state and is left out.  Unsigned 32-bit quantities are natural
numbers reduced modulo `2^32` wherever the source computes with them.
-/

namespace OtaConfigLoader

/-- Arduino `String`: a finite sequence of characters. -/
abbrev Str := List Char

/-! ## The Arduino `String` members used by the loader -/

/-- `String::isEmpty`. -/
def isEmpty (s : Str) : Bool := s.length == 0

/-- `String::equalsIgnoreCase`: same length and the same characters after
`tolower` (which only touches the ASCII letters `A` to `Z`). -/
def equalsIgnoreCase (s t : Str) : Bool :=
  if s.length ≠ t.length then false
  else if s.length = 0 then true
  else s.map Char.toLower == t.map Char.toLower

/-- `String::startsWith`: `t` is no longer than `s` and the first `t.length`
characters of `s` are those of `t` (an exact, case-sensitive comparison). -/
def startsWith (s t : Str) : Bool :=
  if s.length < t.length then false
  else s.take t.length == t

/-- `String::substring(left, right)`. -/
def substring2 (s : Str) (left right : Nat) : Str :=
  let l := if left > right then right else left
  let r := if left > right then left else right
  if l ≥ s.length then []
  else
    let r := if r > s.length then s.length else r
    (s.drop l).take (r - l)

/-- `String::substring(left)`, which is `substring(left, length())`. -/
def substring (s : Str) (left : Nat) : Str := substring2 s left s.length

/-- C `isspace` in the default locale. -/
def isspace (c : Char) : Bool :=
  c == ' ' || c == '\t' || c == '\n' || c.toNat == 11 || c.toNat == 12 || c == '\r'

/-- `String::trim`: drops the white space at both ends. -/
def trim (s : Str) : Str :=
  ((s.dropWhile isspace).reverse.dropWhile isspace).reverse

/-! ## Unsigned 32-bit arithmetic -/

/-- Conversion to `uint32_t`. -/
def u32 (n : Nat) : Nat := n % 2 ^ 32

/-- Subtraction of two `uint32_t` values, `a - b` in the source. -/
def sub32 (a b : Nat) : Nat := (u32 a + (2 ^ 32 - u32 b)) % 2 ^ 32

/-! ## State -/

/-- `OtaConfigLoader::Settings`, with the defaults of the source. -/
structure Settings where
  gitHost : Str := "raw.githubusercontent.com".toList
  repoPath : Str := "/e77/bin-tracker/main/34.json".toList
  pollMinutes : Nat := 15
  useHttps : Bool := true
  deriving DecidableEq

/-- The NVS namespace "ota-config": the three keys the loader reads or writes.
A key that was never written is `none`. -/
structure Preferences where
  last_poll : Option Nat := none
  version : Option Nat := none
  repo_path : Option Str := none
  deriving DecidableEq

/-- The loader object together with the two stores it owns.  `configJson` is
the content of the SPIFFS file "/config.json", `none` while the file does not
exist. -/
structure Loader where
  settings : Settings
  prefs : Preferences
  configJson : Option Str
  manualUpdateRequested : Bool
  deriving DecidableEq

/-- The constructor `OtaConfigLoader(cfg)`, placed on the given stores: the
manual-request flag starts false. -/
def new (cfg : Settings) (prefs : Preferences) (configJson : Option Str) : Loader :=
  { settings := cfg, prefs := prefs, configJson := configJson,
    manualUpdateRequested := false }

/-- `prefs.getULong("last_poll", 0)`. -/
def getLastPoll (p : Preferences) : Nat := p.last_poll.getD 0

/-- `prefs.getUInt("version", 0)`. -/
def getVersion (p : Preferences) : Nat := p.version.getD 0

/-! ## Operations -/

/-- The local `interval` of `pollNeeded`:
`settings.pollMinutes * 60UL * 1000UL`, computed in 32 bits. -/
def interval (cfg : Settings) : Nat := u32 (u32 (u32 cfg.pollMinutes * 60) * 1000)

/-- `pollNeeded()`; `millis` is the clock reading taken by the call. -/
def pollNeeded (s : Loader) (millis : Nat) : Bool × Loader :=
  let last := u32 (getLastPoll s.prefs)
  let now := u32 millis
  if sub32 now last > interval s.settings then
    (true, { s with prefs := { s.prefs with last_poll := some now } })
  else
    (false, s)

/-- `handleSerialCommand(cmd)`. -/
def handleSerialCommand (s : Loader) (cmd : Str) : Loader :=
  if equalsIgnoreCase cmd "UPDATE".toList then
    { s with manualUpdateRequested := true }
  else if startsWith cmd "BRANCH ".toList then
    let repoPath := substring cmd 7
    { s with settings := { s.settings with repoPath := repoPath },
             prefs := { s.prefs with repo_path := some repoPath },
             manualUpdateRequested := true }
  else
    s

/-- `readCached()`.  `openR` tells whether `SPIFFS.open("/config.json", "r")`
hands back a usable file. -/
def readCached (s : Loader) (openR : Bool) : Str :=
  match s.configJson with
  | none => []
  | some content => if !openR then [] else content

/-- `persistIfNew(payload)`.  `openR` is the answer to the open made by
`readCached`, `openW` tells whether `SPIFFS.open("/config.json", "w")` hands
back a usable file; a refused open leaves the store as it was. -/
def persistIfNew (s : Loader) (payload : Str) (openR openW : Bool) : Bool × Loader :=
  if isEmpty payload then (false, s)
  else
    let prior := readCached s openR
    if prior == payload then (false, s)
    else if !openW then (false, s)
    else
      (true, { s with configJson := some payload,
                      prefs := { s.prefs with
                        version := some (u32 (getVersion s.prefs + 1)) } })

/-- `isManualUpdateRequested()`. -/
def isManualUpdateRequested (s : Loader) : Bool := s.manualUpdateRequested

/-! ## The network side of `fetchLatest` -/

/-- What the outside world answers during one `fetchLatest()` call:
whether `client.connect(host, port)` succeeds, the bytes the server sends back
for a request, and the answer of `client.connected()` given the bytes that are
still unread. -/
structure Net where
  connect : Str → Nat → Bool
  response : Str → Str
  connected : Str → Bool

/-- `Stream::readStringUntil(terminator)` on the unread bytes: the characters
before the first terminator, and what is left unread after it (the terminator
is consumed; without one everything is read). -/
def readStringUntil (terminator : Char) : Str → Str × Str
  | [] => ([], [])
  | c :: rest =>
    if c = terminator then ([], rest)
    else
      let r := readStringUntil terminator rest
      (c :: r.1, r.2)

/-- The header-skipping loop of `fetchLatest`, run for at most `fuel` rounds;
it returns the bytes left unread. -/
def skipHeaders (connected : Str → Bool) : Nat → Str → Str
  | 0, buf => buf
  | fuel + 1, buf =>
    if connected buf then
      let r := readStringUntil '\n' buf
      if r.1 = ['\r'] ∨ r.1.length = 0 then r.2
      else skipHeaders connected fuel r.2
    else buf

/-- The request text sent by `fetchLatest`. -/
def request (cfg : Settings) : Str :=
  "GET ".toList ++ cfg.repoPath ++ " HTTP/1.1\r\n".toList ++
  "Host: ".toList ++ cfg.gitHost ++ "\r\n".toList ++
  "User-Agent: OTA-Boot/1.0\r\n".toList ++
  "Connection: close\r\n\r\n".toList

/-- `fetchLatest()`.  It reads the settings and changes no state. -/
def fetchLatest (s : Loader) (net : Net) : Str :=
  let port := if s.settings.useHttps then 443 else 80
  if !net.connect s.settings.gitHost port then []
  else
    let stream := net.response (request s.settings)
    let st := readStringUntil '\n' stream
    if !startsWith st.1 "HTTP/1.1 200".toList then []
    else
      let body := skipHeaders net.connected (st.2.length + 1) st.2
      trim body

/-! ## Sequences of operations -/

/-- One call on the loader, with the answers of the outside world. -/
inductive Op where
  | pollNeeded (millis : Nat)
  | handleSerialCommand (cmd : Str)
  | fetchLatest (net : Net)
  | persistIfNew (payload : Str) (openR openW : Bool)
  | readCached (openR : Bool)

/-- The state after one call. -/
def step (s : Loader) : Op → Loader
  | .pollNeeded millis => (pollNeeded s millis).2
  | .handleSerialCommand cmd => handleSerialCommand s cmd
  | .fetchLatest _ => s
  | .persistIfNew payload openR openW => (persistIfNew s payload openR openW).2
  | .readCached _ => s

/-- The state after a sequence of calls, made from left to right. -/
def run (s : Loader) (ops : List Op) : Loader := ops.foldl step s

/-- The string `k` spells the upper-case keyword `kw` letter by letter, each
letter in upper or in lower case. -/
def spells (k kw : Str) : Prop :=
  List.Forall₂ (fun a b => a = b ∨ a = b.toLower) k kw

/-! ## Facts about the string members -/

theorem equalsIgnoreCase_of_length_ne {s t : Str} (h : s.length ≠ t.length) :
    equalsIgnoreCase s t = false := by
  simp [equalsIgnoreCase, h]

theorem startsWith_append (t p : Str) : startsWith (t ++ p) t = true := by
  simp [startsWith]

theorem substring_append (t p : Str) : substring (t ++ p) t.length = p := by
  unfold substring substring2
  by_cases hp : p = []
  · subst hp; simp
  · have hlen : 0 < p.length := List.length_pos.mpr hp
    simp only [List.length_append]
    have h1 : ¬ (t.length > t.length + p.length) := by omega
    have h2 : ¬ (t.length ≥ t.length + p.length) := by omega
    simp [h1, h2]

theorem branch_not_update (p : Str) :
    equalsIgnoreCase ("BRANCH ".toList ++ p) "UPDATE".toList = false := by
  apply equalsIgnoreCase_of_length_ne
  simp [List.length_append]

theorem handleSerialCommand_flag_mono (s : Loader) (cmd : Str)
    (h : s.manualUpdateRequested = true) :
    (handleSerialCommand s cmd).manualUpdateRequested = true := by
  unfold handleSerialCommand
  split
  · rfl
  · split
    · rfl
    · exact h

theorem pollNeeded_flag (s : Loader) (millis : Nat) :
    (pollNeeded s millis).2.manualUpdateRequested = s.manualUpdateRequested := by
  unfold pollNeeded
  simp only []
  split <;> rfl

theorem persistIfNew_flag (s : Loader) (payload : Str) (openR openW : Bool) :
    (persistIfNew s payload openR openW).2.manualUpdateRequested
      = s.manualUpdateRequested := by
  unfold persistIfNew
  simp only []
  split
  · rfl
  · split
    · rfl
    · split <;> rfl

theorem step_flag_mono (s : Loader) (op : Op) (h : s.manualUpdateRequested = true) :
    (step s op).manualUpdateRequested = true := by
  cases op with
  | pollNeeded millis => simp [step, pollNeeded_flag, h]
  | handleSerialCommand cmd => exact handleSerialCommand_flag_mono s cmd h
  | fetchLatest net => exact h
  | persistIfNew payload openR openW => simp [step, persistIfNew_flag, h]
  | readCached openR => exact h

theorem spells_update (k : Str) (h : spells k "UPDATE".toList) :
    equalsIgnoreCase k "UPDATE".toList = true := by
  unfold spells at h
  have e : "UPDATE".toList = ['U', 'P', 'D', 'A', 'T', 'E'] := rfl
  rw [e] at h ⊢
  simp only [List.forall₂_cons_right_iff, List.forall₂_nil_right_iff] at h
  obtain ⟨a1, _, h1, ⟨a2, _, h2, ⟨a3, _, h3, ⟨a4, _, h4, ⟨a5, _, h5, ⟨a6, _, h6, rfl, rfl⟩,
    rfl⟩, rfl⟩, rfl⟩, rfl⟩, rfl⟩ := h
  rcases h1 with rfl | rfl <;> rcases h2 with rfl | rfl <;> rcases h3 with rfl | rfl <;>
    rcases h4 with rfl | rfl <;> rcases h5 with rfl | rfl <;> rcases h6 with rfl | rfl <;>
    decide

theorem spells_length {k kw : Str} (h : spells k kw) : k.length = kw.length :=
  List.Forall₂.length_eq h

theorem startsWith_spelling (b p : Str) (hlen : b.length = 6) (hne : b ≠ "BRANCH".toList) :
    startsWith (b ++ ' ' :: p) "BRANCH ".toList = false := by
  have e : "BRANCH ".toList = "BRANCH".toList ++ [' '] := rfl
  have l7 : ("BRANCH".toList ++ [' ']).length = 7 := rfl
  have hb : (b ++ ' ' :: p) = (b ++ [' ']) ++ p := by simp
  have hl : (b ++ [' ']).length = 7 := by simp [hlen]
  unfold startsWith
  rw [e, l7, hb, List.take_left' hl]
  have : ¬ (((b ++ [' ']) ++ p).length < 7) := by
    simp only [List.length_append] at hl ⊢
    omega
  simp only [this, if_false]
  simp only [beq_eq_false_iff_ne, ne_eq]
  intro habs
  exact hne (List.append_cancel_right habs)

/-! ## The serial command channel -/

/-- C6: for every string `p`, `handleSerialCommand("BRANCH " + p)` leaves the
in-memory remote path equal to `p`, the persisted key `repo_path` equal to `p`
and the manual-request flag set, and touches nothing else; in particular
"BRANCH foo/bar" yields the remote path "foo/bar". -/
theorem branch_command_sets_path (s : Loader) (p : Str) :
    (handleSerialCommand s ("BRANCH ".toList ++ p)).settings.repoPath = p
    ∧ (handleSerialCommand s ("BRANCH ".toList ++ p)).prefs.repo_path = some p
    ∧ isManualUpdateRequested (handleSerialCommand s ("BRANCH ".toList ++ p)) = true
    ∧ handleSerialCommand s ("BRANCH ".toList ++ p)
        = { s with settings := { s.settings with repoPath := p },
                   prefs := { s.prefs with repo_path := some p },
                   manualUpdateRequested := true }
    ∧ (handleSerialCommand s "BRANCH foo/bar".toList).settings.repoPath
        = "foo/bar".toList := by
  have hsub : substring ("BRANCH ".toList ++ p) 7 = p := substring_append "BRANCH ".toList p
  have key : handleSerialCommand s ("BRANCH ".toList ++ p)
      = { s with settings := { s.settings with repoPath := p },
                 prefs := { s.prefs with repo_path := some p },
                 manualUpdateRequested := true } := by
    unfold handleSerialCommand
    rw [branch_not_update p, startsWith_append]
    simp only [hsub]
    rfl
  refine ⟨?_, ?_, ?_, key, ?_⟩
  · rw [key]
  · rw [key]
  · rw [key]; rfl
  · have hfoo : handleSerialCommand s ("BRANCH ".toList ++ "foo/bar".toList)
        = { s with settings := { s.settings with repoPath := "foo/bar".toList },
                   prefs := { s.prefs with repo_path := some "foo/bar".toList },
                   manualUpdateRequested := true } := by
      unfold handleSerialCommand
      rw [branch_not_update, startsWith_append]
      simp only [substring_append "BRANCH ".toList "foo/bar".toList]
      rfl
    have e : "BRANCH foo/bar".toList = "BRANCH ".toList ++ "foo/bar".toList := rfl
    rw [e, hfoo]

/-- C7: the keyword UPDATE is matched in every upper/lower-case spelling, but
the keyword BRANCH only in upper case: a line made of any other spelling of
BRANCH, a blank and a path leaves the whole state as it was (so "branch
foo/bar" neither replaces the remote path nor sets the flag). -/
theorem keyword_case_matching (s : Loader) :
    (∀ k : Str, spells k "UPDATE".toList →
        isManualUpdateRequested (handleSerialCommand s k) = true)
    ∧ (∀ b p : Str, spells b "BRANCH".toList → b ≠ "BRANCH".toList →
        handleSerialCommand s (b ++ ' ' :: p) = s)
    ∧ handleSerialCommand (new {} {} none) "branch foo/bar".toList = new {} {} none
    ∧ handleSerialCommand (new {} {} none) "branch foo/bar".toList
        ≠ handleSerialCommand (new {} {} none) "BRANCH foo/bar".toList := by
  refine ⟨?_, ?_, by decide, by decide⟩
  · intro k hk
    unfold handleSerialCommand
    rw [spells_update k hk]
    rfl
  · intro b p hb hne
    have hlen : b.length = 6 := spells_length hb
    have h1 : equalsIgnoreCase (b ++ ' ' :: p) "UPDATE".toList = false := by
      apply equalsIgnoreCase_of_length_ne
      have : "UPDATE".toList.length = 6 := rfl
      simp only [List.length_append, List.length_cons, hlen, this]
      omega
    unfold handleSerialCommand
    rw [h1, startsWith_spelling b p hlen hne]
    rfl

/-- Witness of C7's evaluation: the line "uPdAtE" sets the flag, the line
"Branch x" changes nothing. -/
theorem keyword_case_matching_witness :
    isManualUpdateRequested (handleSerialCommand (new {} {} none) "uPdAtE".toList) = true
    ∧ handleSerialCommand (new {} {} none) ("Branch".toList ++ ' ' :: "x".toList)
        = new {} {} none :=
  ⟨(keyword_case_matching (new {} {} none)).1 "uPdAtE".toList
      (by unfold spells; decide),
   (keyword_case_matching (new {} {} none)).2.1 "Branch".toList "x".toList
      (by unfold spells; decide) (by decide)⟩

/-- C8: the line "UPDATE" sets the manual-request flag and changes nothing
else; a line that is neither UPDATE (in any case) nor one starting with
"BRANCH " leaves the whole state unchanged: settings, persisted keys, cached
file and flag. -/
theorem other_lines_change_nothing (s : Loader) :
    handleSerialCommand s "UPDATE".toList = { s with manualUpdateRequested := true }
    ∧ (∀ cmd : Str, equalsIgnoreCase cmd "UPDATE".toList = false →
        startsWith cmd "BRANCH ".toList = false → handleSerialCommand s cmd = s) := by
  constructor
  · rfl
  · intro cmd h1 h2
    unfold handleSerialCommand
    rw [h1, h2]
    rfl

/-- Witness of C8: "unrecognized text" is neither command and leaves a loader
with a stored version, a cached file and a set flag as it was. -/
theorem other_lines_change_nothing_witness :
    equalsIgnoreCase "unrecognized text".toList "UPDATE".toList = false
    ∧ startsWith "unrecognized text".toList "BRANCH ".toList = false
    ∧ handleSerialCommand
        { settings := {}, prefs := { version := some 3 }, configJson := some "x".toList,
          manualUpdateRequested := true } "unrecognized text".toList
      = { settings := {}, prefs := { version := some 3 }, configJson := some "x".toList,
          manualUpdateRequested := true } :=
  ⟨by decide, by decide,
   (other_lines_change_nothing _).2 "unrecognized text".toList (by decide) (by decide)⟩

/-- C10: the flag starts false, and once it is set it stays set after every
sequence of loader calls (pollNeeded, handleSerialCommand with any line,
fetchLatest, persistIfNew, readCached): nothing in the loader clears it. -/
theorem manual_flag_never_cleared :
    (∀ (cfg : Settings) (prefs : Preferences) (file : Option Str),
        isManualUpdateRequested (new cfg prefs file) = false)
    ∧ (∀ (s : Loader) (ops : List Op), isManualUpdateRequested s = true →
        isManualUpdateRequested (run s ops) = true)
    ∧ (∀ (s : Loader) (ops : List Op),
        isManualUpdateRequested (run (handleSerialCommand s "UPDATE".toList) ops) = true) := by
  have mono : ∀ (ops : List Op) (s : Loader), s.manualUpdateRequested = true →
      (run s ops).manualUpdateRequested = true := by
    intro ops
    induction ops with
    | nil => intro s h; exact h
    | cons op rest ih =>
      intro s h
      exact ih (step s op) (step_flag_mono s op h)
  refine ⟨fun _ _ _ => rfl, fun s ops h => mono ops s h, fun s ops => mono ops _ ?_⟩
  rfl

/-- Witness of C10: after "UPDATE" on a fresh loader, a poll, an unknown line,
a persist and a read leave the flag set. -/
theorem manual_flag_never_cleared_witness :
    isManualUpdateRequested (handleSerialCommand (new {} {} none) "UPDATE".toList) = true
    ∧ isManualUpdateRequested
        (run (handleSerialCommand (new {} {} none) "UPDATE".toList)
          [Op.pollNeeded 1000000, Op.handleSerialCommand "noise".toList,
           Op.persistIfNew "cfg".toList true true, Op.readCached true]) = true :=
  ⟨by decide, manual_flag_never_cleared.2.1 _ _ (by decide)⟩

/-! ## The poll gate -/

theorem sub32_eq (a b : Nat) (ha : a < 2 ^ 32) (hb : b < 2 ^ 32) :
    (sub32 a b : ℤ) = ((a : ℤ) - (b : ℤ)) % 2 ^ 32 := by
  unfold sub32 u32
  rw [Nat.mod_eq_of_lt ha, Nat.mod_eq_of_lt hb]
  norm_num at ha hb ⊢
  omega

theorem interval_eq (cfg : Settings) :
    interval cfg = (cfg.pollMinutes * 60 * 1000) % 2 ^ 32 := by
  unfold interval u32
  omega

theorem pollNeeded_true_iff (s : Loader) (millis : Nat) :
    (pollNeeded s millis).1 = true
      ↔ sub32 (u32 millis) (u32 (getLastPoll s.prefs)) > interval s.settings := by
  unfold pollNeeded
  simp only []
  split
  · simp_all
  · simp_all

theorem pollNeeded_state (s : Loader) (millis : Nat) :
    ((pollNeeded s millis).1 = true →
        (pollNeeded s millis).2
          = { s with prefs := { s.prefs with last_poll := some (u32 millis) } })
    ∧ ((pollNeeded s millis).1 = false → (pollNeeded s millis).2 = s) := by
  unfold pollNeeded
  simp only []
  split
  · simp
  · simp

theorem u32_of_lt {n : Nat} (h : n < 2 ^ 32) : u32 n = n := Nat.mod_eq_of_lt h

/-- C4, as stated, fails: with pollMinutes = 71583 and nothing stored, calls
at the readings 20000 and 40000 are 20000 ms apart, far below the poll interval
of 71583 × 60 × 1000 ms, and still both return true. -/
theorem poll_twice_both_true_on_overflow :
    ((40000 : ℤ) - (20000 : ℤ)) % 2 ^ 32 ≤ ((71583 * 60 * 1000 : ℕ) : ℤ)
    ∧ (pollNeeded (new { pollMinutes := 71583 } {} none) 20000).1 = true
    ∧ (pollNeeded (pollNeeded (new { pollMinutes := 71583 } {} none) 20000).2 40000).1
        = true := by
  decide

/-- C4, amended: two consecutive `pollNeeded()` calls at 32-bit clock readings
`t1` then `t2` with `(t2 - t1) mod 2^32` not above
`(pollMinutes × 60 × 1000) mod 2^32` do not both return true; for
pollMinutes ≤ 71582 that bound is the poll interval in milliseconds itself.
Every call stores its own clock reading in `last_poll` when it returns true
and leaves the state unchanged when it returns false. -/
theorem poll_twice_within_interval (s : Loader) (t1 t2 : Nat)
    (h1 : t1 < 2 ^ 32) (h2 : t2 < 2 ^ 32)
    (hw : ((t2 : ℤ) - (t1 : ℤ)) % 2 ^ 32
      ≤ (((s.settings.pollMinutes * 60 * 1000) % 2 ^ 32 : ℕ) : ℤ)) :
    ¬ ((pollNeeded s t1).1 = true ∧ (pollNeeded (pollNeeded s t1).2 t2).1 = true)
    ∧ (s.settings.pollMinutes ≤ 71582 →
        (s.settings.pollMinutes * 60 * 1000) % 2 ^ 32
          = s.settings.pollMinutes * 60 * 1000)
    ∧ (∀ (s0 : Loader) (t : Nat), t < 2 ^ 32 →
        ((pollNeeded s0 t).1 = true →
            (pollNeeded s0 t).2 = { s0 with prefs := { s0.prefs with last_poll := some t } })
        ∧ ((pollNeeded s0 t).1 = false → (pollNeeded s0 t).2 = s0)) := by
  refine ⟨?_, ?_, ?_⟩
  · rintro ⟨ha, hb⟩
    have hst := (pollNeeded_state s t1).1 ha
    rw [pollNeeded_true_iff, hst] at hb
    simp only [getLastPoll, Option.getD_some, u32_of_lt h1, u32_of_lt h2] at hb
    rw [interval_eq] at hb
    have hz : (sub32 t2 t1 : ℤ)
        > (((s.settings.pollMinutes * 60 * 1000) % 2 ^ 32 : ℕ) : ℤ) := by
      exact_mod_cast hb
    rw [sub32_eq t2 t1 h2 h1] at hz
    omega
  · intro hpm
    apply Nat.mod_eq_of_lt
    norm_num
    omega
  · intro s0 t ht
    have h := pollNeeded_state s0 t
    rw [u32_of_lt ht] at h
    exact h

/-- Witness of C4 amended: with the default 15 minutes, a stored last poll at 5
and readings 1000000 and 1000500, the first call returns true and the second
false; the bound is 900000 ms. -/
theorem poll_twice_within_interval_witness :
    ¬ ((pollNeeded (new {} { last_poll := some 5 } none) 1000000).1 = true
        ∧ (pollNeeded (pollNeeded (new {} { last_poll := some 5 } none) 1000000).2
            1000500).1 = true)
    ∧ (pollNeeded (new {} { last_poll := some 5 } none) 1000000).1 = true
    ∧ (15 * 60 * 1000) % 2 ^ 32 = 15 * 60 * 1000 :=
  ⟨(poll_twice_within_interval (new {} { last_poll := some 5 } none) 1000000 1000500
      (by norm_num) (by norm_num) (by decide)).1, by decide,
   (poll_twice_within_interval (new {} { last_poll := some 5 } none) 1000000 1000500
      (by norm_num) (by norm_num) (by decide)).2.1 (by decide)⟩

/-- C5, as stated, fails: with pollMinutes = 71583 (a 32-bit value), nothing
stored and the clock at 20000, `pollNeeded()` returns true although the elapsed
20000 ms do not exceed 71583 × 60 × 1000 ms. -/
theorem poll_interval_conversion_overflows :
    ¬ ((pollNeeded (new { pollMinutes := 71583 } {} none) 20000).1 = true
        ↔ ((20000 : ℤ) - (getLastPoll ({} : Preferences) : ℤ)) % 2 ^ 32
            > ((71583 * 60 * 1000 : ℕ) : ℤ)) := by
  decide

/-- C5, amended: for 32-bit `last_poll` and clock reading, `pollNeeded()`
returns true exactly when the elapsed time `(now - last_poll) mod 2^32` exceeds
`(pollMinutes × 60 × 1000) mod 2^32`; for pollMinutes ≤ 71582 that bound is
pollMinutes × 60 × 1000 itself, so there the conversion loses nothing. -/
theorem poll_needed_iff_elapsed (s : Loader) (now : Nat)
    (hnow : now < 2 ^ 32) (hlast : getLastPoll s.prefs < 2 ^ 32) :
    ((pollNeeded s now).1 = true
        ↔ ((now : ℤ) - (getLastPoll s.prefs : ℤ)) % 2 ^ 32
            > (((s.settings.pollMinutes * 60 * 1000) % 2 ^ 32 : ℕ) : ℤ))
    ∧ (s.settings.pollMinutes ≤ 71582 →
        interval s.settings = s.settings.pollMinutes * 60 * 1000
        ∧ ((pollNeeded s now).1 = true
            ↔ ((now : ℤ) - (getLastPoll s.prefs : ℤ)) % 2 ^ 32
                > ((s.settings.pollMinutes * 60 * 1000 : ℕ) : ℤ))) := by
  have key : (pollNeeded s now).1 = true
      ↔ ((now : ℤ) - (getLastPoll s.prefs : ℤ)) % 2 ^ 32
          > (((s.settings.pollMinutes * 60 * 1000) % 2 ^ 32 : ℕ) : ℤ) := by
    rw [pollNeeded_true_iff, u32_of_lt hnow, u32_of_lt hlast, interval_eq,
      ← sub32_eq now _ hnow hlast]
    exact ⟨fun h => by exact_mod_cast h, fun h => by exact_mod_cast h⟩
  refine ⟨key, fun hpm => ?_⟩
  have hsmall : (s.settings.pollMinutes * 60 * 1000) % 2 ^ 32
      = s.settings.pollMinutes * 60 * 1000 := by
    apply Nat.mod_eq_of_lt
    norm_num
    omega
  refine ⟨by rw [interval_eq, hsmall], ?_⟩
  rw [hsmall] at key
  exact key

/-- Witness of C5 amended: default settings (15 minutes), last poll stored at
100, clock at 900101: the elapsed 900001 ms exceed 900000 ms and the call
returns true. -/
theorem poll_needed_iff_elapsed_witness :
    (pollNeeded (new {} { last_poll := some 100 } none) 900101).1 = true
    ∧ interval ({} : Settings) = 15 * 60 * 1000 :=
  ⟨((poll_needed_iff_elapsed (new {} { last_poll := some 100 } none) 900101
      (by norm_num) (by decide)).2 (by decide)).2.mpr (by decide),
   ((poll_needed_iff_elapsed (new {} { last_poll := some 100 } none) 900101
      (by norm_num) (by decide)).2 (by decide)).1⟩

/-! ## Persisting a payload -/

theorem isEmpty_eq_false {p : Str} (h : p ≠ []) : isEmpty p = false := by
  cases p with
  | nil => exact absurd rfl h
  | cons c rest => rfl

theorem persistIfNew_empty (s : Loader) (openR openW : Bool) :
    persistIfNew s [] openR openW = (false, s) := rfl

theorem persistIfNew_same (s : Loader) (p : Str) (openR openW : Bool)
    (h : readCached s openR = p) : persistIfNew s p openR openW = (false, s) := by
  unfold persistIfNew
  simp only [h, beq_self_eq_true, if_true]
  split <;> rfl

theorem persistIfNew_write (s : Loader) (p : Str) (openR : Bool)
    (hp : p ≠ []) (h : readCached s openR ≠ p) :
    persistIfNew s p openR true
      = (true, { s with configJson := some p,
                        prefs := { s.prefs with
                          version := some (u32 (getVersion s.prefs + 1)) } }) := by
  unfold persistIfNew
  have hb : (readCached s openR == p) = false := by simpa using h
  simp [isEmpty_eq_false hp, hb]

theorem persistIfNew_refused (s : Loader) (p : Str) (openR : Bool) :
    persistIfNew s p openR false = (false, s) := by
  unfold persistIfNew
  simp only []
  split
  · rfl
  · split <;> rfl

/-- C1, as stated, fails at the top of the counter: with the stored version at
4294967295 and an empty cache, persisting "x" returns true but the stored
version becomes 0, so it neither grew by one nor stayed unchanged. -/
theorem version_wraps_at_max :
    ¬ (((persistIfNew (new {} { version := some 4294967295 } none) "x".toList true true).1
            = true
          ∧ (persistIfNew (new {} { version := some 4294967295 } none)
              "x".toList true true).2.configJson = some "x".toList
          ∧ "x".toList ≠ readCached (new {} { version := some 4294967295 } none) true
          ∧ getVersion (persistIfNew (new {} { version := some 4294967295 } none)
              "x".toList true true).2.prefs
            = getVersion ({ version := some 4294967295 } : Preferences) + 1)
        ∨ ((persistIfNew (new {} { version := some 4294967295 } none) "x".toList true true).1
            = false
          ∧ (persistIfNew (new {} { version := some 4294967295 } none)
              "x".toList true true).2.configJson = none
          ∧ getVersion (persistIfNew (new {} { version := some 4294967295 } none)
              "x".toList true true).2.prefs
            = getVersion ({ version := some 4294967295 } : Preferences))) := by
  decide

/-- With the open for reading granted, `readCached()` is the content of the
file, the empty string when there is none. -/
theorem readCached_granted (s : Loader) : readCached s true = s.configJson.getD [] := by
  unfold readCached
  cases s.configJson <;> rfl

/-- When the open for reading is refused while the file already holds the
payload, `persistIfNew` takes the file for empty, writes the same bytes again
and raises the stored version. -/
theorem persistIfNew_refused_read_rewrites :
    persistIfNew (new {} { version := some 2 } (some "a".toList)) "a".toList false true
      = (true, new {} { version := some 3 } (some "a".toList)) := by
  decide

/-- C1, amended: leaving aside a refused open for reading while the file
already holds the payload, one `persistIfNew(payload)` call either (a) returns
true, the file holds exactly the payload, the payload differed from the prior
content of the file (empty when there was none), and the stored version became
(old + 1) mod 2^32, which is old + 1 unless old was 2^32 - 1; or (b) returns
false and leaves the whole state unchanged.  The empty payload gives (b).  From
an empty cache with version 0 and file opens that succeed, persisting {"v":1},
{"v":1}, {"v":2} returns true, false, true and leaves the version at 1, 1, 2. -/
theorem persistIfNew_outcome (s : Loader) (payload : Str) (openR openW : Bool) :
    (openR = true ∨ s.configJson ≠ some payload →
      (((persistIfNew s payload openR openW).1 = true
          ∧ (persistIfNew s payload openR openW).2.configJson = some payload
          ∧ payload ≠ s.configJson.getD []
          ∧ s.configJson ≠ some payload
          ∧ getVersion (persistIfNew s payload openR openW).2.prefs
              = (getVersion s.prefs + 1) % 2 ^ 32
          ∧ (getVersion s.prefs + 1 < 2 ^ 32 →
              getVersion (persistIfNew s payload openR openW).2.prefs
                = getVersion s.prefs + 1)
          ∧ (persistIfNew s payload openR openW).2
              = { s with configJson := some payload,
                         prefs := { s.prefs with
                           version := some ((getVersion s.prefs + 1) % 2 ^ 32) } })
        ∨ ((persistIfNew s payload openR openW).1 = false
          ∧ (persistIfNew s payload openR openW).2 = s)))
    ∧ (payload = [] → persistIfNew s payload openR openW = (false, s))
    ∧ (s.configJson = none → getVersion s.prefs = 0 →
        (persistIfNew s "\x7b\"v\":1\x7d".toList true true).1 = true
        ∧ getVersion (persistIfNew s "\x7b\"v\":1\x7d".toList true true).2.prefs = 1
        ∧ readCached (persistIfNew s "\x7b\"v\":1\x7d".toList true true).2 true
            = "\x7b\"v\":1\x7d".toList
        ∧ (persistIfNew (persistIfNew s "\x7b\"v\":1\x7d".toList true true).2
            "\x7b\"v\":1\x7d".toList true true).1 = false
        ∧ getVersion (persistIfNew (persistIfNew s "\x7b\"v\":1\x7d".toList true true).2
            "\x7b\"v\":1\x7d".toList true true).2.prefs = 1
        ∧ (persistIfNew (persistIfNew (persistIfNew s "\x7b\"v\":1\x7d".toList true true).2
            "\x7b\"v\":1\x7d".toList true true).2 "\x7b\"v\":2\x7d".toList true true).1 = true
        ∧ getVersion (persistIfNew (persistIfNew
            (persistIfNew s "\x7b\"v\":1\x7d".toList true true).2
            "\x7b\"v\":1\x7d".toList true true).2
            "\x7b\"v\":2\x7d".toList true true).2.prefs = 2) := by
  refine ⟨?_, ?_, ?_⟩
  · intro hread
    by_cases hp : payload = []
    · right; subst hp; exact ⟨rfl, rfl⟩
    · by_cases hsame : readCached s openR = payload
      · right; rw [persistIfNew_same s payload openR openW hsame]; exact ⟨rfl, rfl⟩
      · cases openW with
        | false => right; rw [persistIfNew_refused]; exact ⟨rfl, rfl⟩
        | true =>
          left
          have hfile : s.configJson ≠ some payload := by
            rcases hread with hR | hne
            · subst hR
              intro hcfg
              apply hsame
              rw [readCached_granted, hcfg]
              rfl
            · exact hne
          have hdiff : payload ≠ s.configJson.getD [] := by
            intro heq
            cases hcfg : s.configJson with
            | none => rw [hcfg] at heq; exact hp heq
            | some content =>
              rw [hcfg] at heq
              apply hfile
              rw [hcfg, heq]
              rfl
          rw [persistIfNew_write s payload openR hp hsame]
          refine ⟨rfl, rfl, hdiff, hfile, rfl, ?_, rfl⟩
          intro hlt
          exact Nat.mod_eq_of_lt hlt
  · intro hp; subst hp; rfl
  · intro hfile hver
    have hr : readCached s true = [] := by simp [readCached, hfile]
    have w1 := persistIfNew_write s "\x7b\"v\":1\x7d".toList true (by decide)
      (by rw [hr]; decide)
    rw [w1]
    have hread : readCached
        { s with
          configJson := some "\x7b\"v\":1\x7d".toList,
          prefs := { s.prefs with version := some (u32 (getVersion s.prefs + 1)) } } true
          = "\x7b\"v\":1\x7d".toList := rfl
    rw [persistIfNew_same _ "\x7b\"v\":1\x7d".toList true true hread]
    have w3 := persistIfNew_write
      { s with
        configJson := some "\x7b\"v\":1\x7d".toList,
        prefs := { s.prefs with version := some (u32 (getVersion s.prefs + 1)) } }
      "\x7b\"v\":2\x7d".toList true (by decide) (by rw [hread]; decide)
    rw [w3]
    rw [hver]
    exact ⟨rfl, rfl, rfl, rfl, rfl, rfl, rfl⟩

/-- Witness of C1 amended: a loader holding version 3 and the file "old" that
persists "new", and a loader with nothing stored and no cached file. -/
theorem persistIfNew_outcome_witness :
    (((persistIfNew (new {} { version := some 3 } (some "old".toList))
            "new".toList true true).1 = true
        ∧ (persistIfNew (new {} { version := some 3 } (some "old".toList))
            "new".toList true true).2.configJson = some "new".toList
        ∧ getVersion (persistIfNew (new {} { version := some 3 } (some "old".toList))
            "new".toList true true).2.prefs = 3 + 1))
    ∧ (persistIfNew (new {} {} none) "\x7b\"v\":1\x7d".toList true true).1 = true
    ∧ getVersion (persistIfNew (persistIfNew (persistIfNew (new {} {} none)
        "\x7b\"v\":1\x7d".toList true true).2 "\x7b\"v\":1\x7d".toList true true).2
        "\x7b\"v\":2\x7d".toList true true).2.prefs = 2
    ∧ persistIfNew (new {} {} none) [] true true = (false, new {} {} none) :=
  ⟨((persistIfNew_outcome (new {} { version := some 3 } (some "old".toList))
        "new".toList true true).1 (Or.inl rfl)).elim
      (fun h => ⟨h.1, h.2.1, h.2.2.2.2.2.1 (by decide)⟩)
      (fun h => absurd h.1 (by decide)),
   ((persistIfNew_outcome (new {} {} none) [] true true).2.2 rfl rfl).1,
   ((persistIfNew_outcome (new {} {} none) [] true true).2.2 rfl rfl).2.2.2.2.2.2,
   (persistIfNew_outcome (new {} {} none) [] true true).2.1 rfl⟩

/-- C2, as stated, fails: when the cache already holds "a", persisting "a" and
then "b" raises the version once, not twice. -/
theorem persist_two_payloads_counts_once :
    "a".toList ≠ "b".toList
    ∧ ¬ (getVersion (persistIfNew (persistIfNew (new {} {} (some "a".toList))
            "a".toList true true).2 "b".toList true true).2.prefs
          = getVersion ({} : Preferences) + 2
        ∧ readCached (persistIfNew (persistIfNew (new {} {} (some "a".toList))
            "a".toList true true).2 "b".toList true true).2 true = "b".toList) := by
  decide

/-- C2, amended: for non-empty payloads P1 ≠ P2 with P1 different from the
cached content, and file opens that succeed, `persistIfNew(P1)` then
`persistIfNew(P2)` both return true, the stored version ends at
(old + 2) mod 2^32 (old + 2 when that fits 32 bits) and `readCached()` returns
P2. -/
theorem persist_two_payloads (s : Loader) (P1 P2 : Str)
    (hne : P1 ≠ P2) (h1 : P1 ≠ []) (h2 : P2 ≠ []) (hc : readCached s true ≠ P1) :
    (persistIfNew s P1 true true).1 = true
    ∧ (persistIfNew (persistIfNew s P1 true true).2 P2 true true).1 = true
    ∧ getVersion (persistIfNew (persistIfNew s P1 true true).2 P2 true true).2.prefs
        = (getVersion s.prefs + 2) % 2 ^ 32
    ∧ (getVersion s.prefs + 2 < 2 ^ 32 →
        getVersion (persistIfNew (persistIfNew s P1 true true).2 P2 true true).2.prefs
          = getVersion s.prefs + 2)
    ∧ readCached (persistIfNew (persistIfNew s P1 true true).2 P2 true true).2 true
        = P2 := by
  rw [persistIfNew_write s P1 true h1 hc]
  have hread : readCached
      { s with
        configJson := some P1,
        prefs := { s.prefs with version := some (u32 (getVersion s.prefs + 1)) } } true
        = P1 := rfl
  rw [persistIfNew_write _ P2 true h2 (by rw [hread]; exact hne)]
  have hv : u32 (u32 (getVersion s.prefs + 1) + 1) = (getVersion s.prefs + 2) % 2 ^ 32 := by
    unfold u32
    omega
  refine ⟨rfl, rfl, ?_, ?_, rfl⟩
  · simp only [getVersion, Option.getD_some]
    exact hv
  · intro hlt
    simp only [getVersion, Option.getD_some]
    simp only [getVersion] at hv hlt
    rw [hv]
    exact Nat.mod_eq_of_lt hlt

/-- Witness of C2 amended: empty cache, version 4, payloads "a" then "b". -/
theorem persist_two_payloads_witness :
    getVersion (persistIfNew (persistIfNew (new {} { version := some 4 } none)
        "a".toList true true).2 "b".toList true true).2.prefs = 4 + 2
    ∧ readCached (persistIfNew (persistIfNew (new {} { version := some 4 } none)
        "a".toList true true).2 "b".toList true true).2 true = "b".toList :=
  ⟨(persist_two_payloads (new {} { version := some 4 } none) "a".toList "b".toList
      (by decide) (by decide) (by decide) (by decide)).2.2.2.1 (by decide),
   (persist_two_payloads (new {} { version := some 4 } none) "a".toList "b".toList
      (by decide) (by decide) (by decide) (by decide)).2.2.2.2⟩

/-- C3, as stated, fails: when the first call cannot open the file for writing
and the second can, the second call of `persistIfNew("x")` returns true and
writes. -/
theorem second_persist_after_refused_open :
    ¬ ((persistIfNew (persistIfNew (new {} {} none) "x".toList true false).2
          "x".toList true true).1 = false
        ∧ (persistIfNew (persistIfNew (new {} {} none) "x".toList true false).2
          "x".toList true true).2
          = (persistIfNew (new {} {} none) "x".toList true false).2) := by
  decide

/-- C3, amended: when the first call's open for writing and the second call's
open for reading succeed, the second `persistIfNew(P)` returns false and leaves
the state (stored version and cached file included) as the first call left
it. -/
theorem persist_twice_idempotent (s : Loader) (P : Str) (openR1 openW2 : Bool) :
    persistIfNew (persistIfNew s P openR1 true).2 P true openW2
      = (false, (persistIfNew s P openR1 true).2) := by
  by_cases hp : P = []
  · subst hp; rfl
  · by_cases hsame : readCached s openR1 = P
    · rw [persistIfNew_same s P openR1 true hsame]
      apply persistIfNew_same
      have hP : isEmpty P = false := isEmpty_eq_false hp
      unfold readCached at hsame ⊢
      cases hfile : s.configJson with
      | none => rw [hfile] at hsame; exact absurd hsame.symm hp
      | some content =>
        rw [hfile] at hsame
        cases openR1 with
        | false => exact absurd hsame.symm hp
        | true => simpa using hsame
    · rw [persistIfNew_write s P openR1 hp hsame]
      exact persistIfNew_same _ P true openW2 rfl

/-! ## Fetching -/

theorem readStringUntil_length (t : Char) (buf : Str) :
    (readStringUntil t buf).1.length + (readStringUntil t buf).2.length ≤ buf.length := by
  induction buf with
  | nil => simp [readStringUntil]
  | cons c rest ih =>
    unfold readStringUntil
    split
    · simp
    · simp only [List.length_cons]
      omega

/-- The header loop never runs out of rounds: any two round budgets above the
number of unread bytes give the same result. -/
theorem skipHeaders_fuel (connected : Str → Bool) (n m : Nat) (buf : Str)
    (hn : buf.length < n) (hm : buf.length < m) :
    skipHeaders connected n buf = skipHeaders connected m buf := by
  induction n generalizing m buf with
  | zero => omega
  | succ n ih =>
    cases m with
    | zero => omega
    | succ m =>
      unfold skipHeaders
      by_cases hc : connected buf = true
      · simp only [hc, if_true]
        by_cases hne : (readStringUntil '\n' buf).1 = ['\r']
            ∨ (readStringUntil '\n' buf).1.length = 0
        · rw [if_pos hne, if_pos hne]
        · rw [if_neg hne, if_neg hne]
          have hlen := readStringUntil_length '\n' buf
          have hpos : 0 < (readStringUntil '\n' buf).1.length := by
            rcases Nat.eq_zero_or_pos (readStringUntil '\n' buf).1.length with h0 | h0
            · exact absurd (Or.inr h0) hne
            · exact h0
          exact ih m _ (by omega) (by omega)
      · simp only [hc]
        rfl

/-- A complete exchange: status 200, two header lines, the blank line and a
body between blank lines give the trimmed body. -/
theorem fetchLatest_example :
    fetchLatest (new {} {} none)
      { connect := fun _ port => port == 443,
        response := fun _ =>
          "HTTP/1.1 200 OK\r\nContent-Type: text/plain\r\nX: y\r\n\r\n\n cfg \r\n".toList,
        connected := fun unread => !unread.isEmpty }
      = "cfg".toList := by
  decide

/-- C9: when the status line of the response does not begin with
"HTTP/1.1 200", whatever follows it, `fetchLatest()` returns the empty string,
and `persistIfNew` of that result returns false and leaves the state (cached
file and stored version included) unchanged. -/
theorem bad_status_yields_nothing (s : Loader) (net : Net) (openR openW : Bool)
    (h : startsWith (readStringUntil '\n' (net.response (request s.settings))).1
          "HTTP/1.1 200".toList = false) :
    fetchLatest s net = []
    ∧ persistIfNew s (fetchLatest s net) openR openW = (false, s) := by
  have hf : fetchLatest s net = [] := by
    unfold fetchLatest
    simp only [h, Bool.not_false, if_true, ite_self]
  exact ⟨hf, by rw [hf]; rfl⟩

/-- Witness of C9: the response "HTTP/1.1 404 Not Found" with headers and a
body, on a loader holding version 7 and a cached file. -/
theorem bad_status_yields_nothing_witness :
    fetchLatest
        { settings := {}, prefs := { version := some 7 }, configJson := some "old".toList,
          manualUpdateRequested := false }
        { connect := fun _ _ => true,
          response := fun _ => "HTTP/1.1 404 Not Found\r\nA: b\r\n\r\nbody".toList,
          connected := fun unread => !unread.isEmpty } = []
    ∧ persistIfNew
        { settings := {}, prefs := { version := some 7 }, configJson := some "old".toList,
          manualUpdateRequested := false }
        (fetchLatest
          { settings := {}, prefs := { version := some 7 }, configJson := some "old".toList,
            manualUpdateRequested := false }
          { connect := fun _ _ => true,
            response := fun _ => "HTTP/1.1 404 Not Found\r\nA: b\r\n\r\nbody".toList,
            connected := fun unread => !unread.isEmpty }) true true
      = (false,
          { settings := {}, prefs := { version := some 7 }, configJson := some "old".toList,
            manualUpdateRequested := false }) :=
  bad_status_yields_nothing _ _ true true (by decide)

end OtaConfigLoader
